import Mathlib

/-
Verification of the project-timeline generator application
(src/timeline_generator_app.py) against its specification.

The Python program is shallowly embedded below:
* dates and datetimes are modelled with an explicit Gregorian calendar
  (`Date`, `Datetime`, `addDays`), matching Python's `datetime`/`timedelta`
  arithmetic for in-range dates;
* the Generate-Timeline loop, the save/load JSON adapter, the file listing,
  the Add-Phase handler and the three export payloads are translated
  definition by definition from the source.
-/

namespace TimelineApp

/-- Calendar date, mirroring Python's `datetime.date` fields. -/
structure Date where
  year : Nat
  month : Nat
  day : Nat
deriving DecidableEq, Repr

/-- Gregorian leap-year rule used by Python's `datetime`. -/
def isLeapYear (y : Nat) : Bool :=
  (y % 4 == 0 && y % 100 != 0) || y % 400 == 0

/-- Number of days in a month of a given year (Gregorian calendar). -/
def daysInMonth (y m : Nat) : Nat :=
  if m == 2 then (if isLeapYear y then 29 else 28)
  else if m == 4 || m == 6 || m == 9 || m == 11 then 30
  else 31

/-- Successor day in the Gregorian calendar. -/
def nextDay (d : Date) : Date :=
  if d.day < daysInMonth d.year d.month then ⟨d.year, d.month, d.day + 1⟩
  else if d.month < 12 then ⟨d.year, d.month + 1, 1⟩
  else ⟨d.year + 1, 1, 1⟩

/-- `addDays n d` is `d + timedelta(days=n)`. -/
def addDays : Nat → Date → Date
  | 0, d => d
  | n + 1, d => addDays n (nextDay d)

/-- A `datetime.datetime` value: a date plus seconds since midnight. -/
structure Datetime where
  date : Date
  secs : Nat
deriving DecidableEq, Repr

/-- `datetime.combine(d, datetime.min.time())`: midnight of the given date. -/
def combineMidnight (d : Date) : Datetime := ⟨d, 0⟩

/-- `dt + timedelta(weeks=w)`: adds `7*w` days, keeping the time of day. -/
def addWeeks (dt : Datetime) (w : Nat) : Datetime :=
  ⟨addDays (7 * w) dt.date, dt.secs⟩

/-- A phase record `{"Phase": name, "Duration (weeks)": weeks}`. -/
structure Phase where
  name : String
  weeks : Nat
deriving DecidableEq, Repr

/-- A computed timeline row
`{"Phase": _, "Start Date": _, "End Date": _, "Duration (weeks)": _}`. -/
structure TimelineEntry where
  phase : String
  startAt : Datetime
  endAt : Datetime
  weeks : Nat
deriving DecidableEq, Repr

/-- The Generate-Timeline loop (source lines 216-228): starting from
`current_start`, each phase starts where the accumulator stands and ends
`duration_weeks` weeks later, which becomes the next accumulator value. -/
def generateTimeline (cur : Datetime) : List Phase → List TimelineEntry
  | [] => []
  | p :: ps =>
    ⟨p.name, cur, addWeeks cur p.weeks, p.weeks⟩ ::
      generateTimeline (addWeeks cur p.weeks) ps

/-- Default entry used only as the `List.getD` fallback in statements. -/
def defEntry : TimelineEntry := ⟨"", ⟨⟨0, 0, 0⟩, 0⟩, ⟨⟨0, 0, 0⟩, 0⟩, 0⟩

/-- Default phase used only as the `List.getD` fallback in statements. -/
def defPhase : Phase := ⟨"", 0⟩

/-- The character for a single decimal digit. -/
def digitChar (n : Nat) : Char := Char.ofNat (48 + n)

/-- The last `w` decimal digits of `n`, zero-padded to width `w` — the digit
sequence printed by a zero-padded `strftime` field of width `w` when
`n < 10^w`. -/
def padDigits : Nat → Nat → List Nat
  | 0, _ => []
  | w + 1, n => padDigits w (n / 10) ++ [n % 10]

/-- Zero-padded decimal rendering of `n` to width `w`, as characters. -/
def padChars (w n : Nat) : List Char := (padDigits w n).map digitChar

/-- Value of a big-endian digit list. -/
def digitsVal (ds : List Nat) : Nat := ds.foldl (fun a d => a * 10 + d) 0

/-- Numeric value of a string of decimal digit characters. -/
def charsVal (cs : List Char) : Nat :=
  cs.foldl (fun a c => a * 10 + (c.toNat - 48)) 0

/-- `start_date.strftime("%Y-%m-%d")` (source line 94) for dates with a
four-digit year. -/
def formatDate (d : Date) : String :=
  ⟨padChars 4 d.year ++ ('-' :: (padChars 2 d.month ++ ('-' :: padChars 2 d.day)))⟩

/-- Split a character list on the separator `'-'`. -/
def splitDash : List Char → List (List Char)
  | [] => [[]]
  | c :: cs =>
    if c = '-' then [] :: splitDash cs
    else
      match splitDash cs with
      | [] => [[c]]
      | g :: gs => (c :: g) :: gs

/-- `datetime.strptime(s, "%Y-%m-%d")` (source line 105): CPython matches
`%Y` against exactly four digits, `%m` and `%d` against one or two digits
with values in 1..12 and 1..31, requires the whole string to be consumed,
and the `datetime` constructor then validates the day against the month
length; any failure raises `ValueError`. -/
def parseDate (s : String) : Option Date :=
  match splitDash s.data with
  | [ys, ms, ds] =>
    if ys.length = 4 ∧ ys.all Char.isDigit ∧
        ms ≠ [] ∧ ms.length ≤ 2 ∧ ms.all Char.isDigit ∧
        ds ≠ [] ∧ ds.length ≤ 2 ∧ ds.all Char.isDigit then
      if 1 ≤ charsVal ys ∧ 1 ≤ charsVal ms ∧ charsVal ms ≤ 12 ∧
          1 ≤ charsVal ds ∧
          charsVal ds ≤ daysInMonth (charsVal ys) (charsVal ms) then
        some ⟨charsVal ys, charsVal ms, charsVal ds⟩
      else none
    else none
  | _ => none

/-- A calendar date that Python's `datetime` accepts; the year is further
restricted to four digits so that `strftime("%Y")` is the plain four-digit
rendering (`st.date_input` produces such dates). -/
def Date.Valid (d : Date) : Prop :=
  1000 ≤ d.year ∧ d.year ≤ 9999 ∧ 1 ≤ d.month ∧ d.month ≤ 12 ∧
    1 ≤ d.day ∧ d.day ≤ daysInMonth d.year d.month

/-- The wall-clock second at which a save happens (`datetime.now()` to
second granularity). -/
structure Timestamp where
  year : Nat
  month : Nat
  day : Nat
  hour : Nat
  minute : Nat
  second : Nat
deriving DecidableEq, Repr

/-- A timestamp `datetime.now()` can produce (four-digit year, valid
calendar and clock fields). -/
def Timestamp.Valid (t : Timestamp) : Prop :=
  1000 ≤ t.year ∧ t.year ≤ 9999 ∧ 1 ≤ t.month ∧ t.month ≤ 12 ∧
    1 ≤ t.day ∧ t.day ≤ 31 ∧ t.hour ≤ 23 ∧ t.minute ≤ 59 ∧ t.second ≤ 59

/-- `datetime.now().strftime("%Y%m%d_%H%M%S")` (source line 206). -/
def fmtTsChars (t : Timestamp) : List Char :=
  padChars 4 t.year ++ padChars 2 t.month ++ padChars 2 t.day ++
    ('_' :: (padChars 2 t.hour ++ padChars 2 t.minute ++ padChars 2 t.second))

/-- `f"project_{timestamp}.json"` (source line 207). -/
def saveFilename (t : Timestamp) : String :=
  "project_" ++ String.mk (fmtTsChars t) ++ ".json"

/-- `str.startswith` on whole strings. -/
def pyStartswith (s p : String) : Bool := p.data.isPrefixOf s.data

/-- `str.endswith` on whole strings. -/
def pyEndswith (s p : String) : Bool := p.data.isSuffixOf s.data

/-- Effect of one Save-Project click on the storage directory (source lines
205-208): `open(filename, "w")` creates the file, or truncates and rewrites
it when a file of that name already exists. The directory is modelled as
the list of file names it contains. -/
def saveToDir (dir : List String) (t : Timestamp) : List String :=
  if saveFilename t ∈ dir then dir else dir ++ [saveFilename t]

/-- A sequence of Save-Project clicks at the given timestamps. -/
def saves (dir : List String) : List Timestamp → List String
  | [] => dir
  | t :: ts => saves (saveToDir dir t) ts

/-- `list_local_projects` (source lines 109-110): the files whose names end
with `".json"` and start with `"project_"`. -/
def listLocalProjects (dir : List String) : List String :=
  dir.filter (fun f => pyEndswith f ".json" && pyStartswith f "project_")

/-- A Python value as held in a parsed JSON document or in
`st.session_state`: JSON scalars, arrays and objects, plus the parsed
`datetime` that `load_project_from_json` substitutes for `"start_date"`
(always a midnight datetime, so carrying the `Date` suffices). -/
inductive JVal where
  | null : JVal
  | bool (b : Bool) : JVal
  | int (n : Int) : JVal
  | str (s : String) : JVal
  | arr (xs : List JVal) : JVal
  | obj (kvs : List (String × JVal)) : JVal
  | date (d : Date) : JVal

/-- Python `dict` key lookup on the association list of a JSON object. -/
def lookupKey : List (String × JVal) → String → Option JVal
  | [], _ => none
  | (k, v) :: kvs, key => if k = key then some v else lookupKey kvs key

/-- Python `dict` key assignment for a key already present. -/
def setKey : List (String × JVal) → String → JVal → List (String × JVal)
  | [], _, _ => []
  | (k, v) :: kvs, key, nv =>
    if k = key then (k, nv) :: kvs else (k, v) :: setKey kvs key nv

/-- The project data passed to `save_project_to_json` (source line 208):
session name, start date, phase list and notes. -/
structure Project where
  name : String
  startDate : Date
  phases : List Phase
  notes : String

/-- A phase dict `{"Phase": ..., "Duration (weeks)": ...}` as serialized
into the saved document. -/
def phaseJson (p : Phase) : JVal :=
  .obj [("Phase", .str p.name), ("Duration (weeks)", .int p.weeks)]

/-- The JSON document written by `save_project_to_json` (lines 91-99). -/
def saveJson (p : Project) : JVal :=
  .obj [("project_name", .str p.name),
    ("start_date", .str (formatDate p.startDate)),
    ("phases", .arr (p.phases.map phaseJson)),
    ("notes", .str p.notes)]

/-- The Python exception kinds a load can raise: `FileNotFoundError` from
`open`, `JSONDecodeError` from `json.load`, `KeyError` from a dict lookup,
`ValueError` from `strptime`/`datetime` validation, `TypeError` from
indexing a non-dict or `strptime` on a non-string. -/
inductive LoadErr where
  | fileNotFound
  | jsonDecode
  | keyError (k : String)
  | valueError
  | typeError
deriving DecidableEq, Repr

/-- `load_project_from_json` (lines 102-106) applied to the parsed file
content: `data["start_date"] = datetime.strptime(data["start_date"],
"%Y-%m-%d")`, returning the dict with `"start_date"` replaced. -/
def loadProject : JVal → Except LoadErr (List (String × JVal))
  | .obj kvs =>
    match lookupKey kvs "start_date" with
    | none => .error (.keyError "start_date")
    | some (.str s) =>
      match parseDate s with
      | some d => .ok (setKey kvs "start_date" (.date d))
      | none => .error .valueError
    | some _ => .error .typeError
  | _ => .error .typeError

/-- The `st.session_state` fields the Load-Project handler assigns. -/
structure Session where
  projectName : JVal
  startDate : JVal
  phases : JVal
  notes : JVal

/-- The selected file as the loader finds it: missing, present but not
valid JSON, or parsed JSON content. -/
inductive FileContent where
  | absent : FileContent
  | notJson : FileContent
  | content (j : JVal) : FileContent

/-- The Load-Project click handler (source lines 134-140). The session
fields are assigned in source order; an exception raised at any point
aborts the handler but keeps the assignments already made, so the error
result carries the session state at the moment the exception was raised. -/
def loadButton (s : Session) (fc : FileContent) :
    Except (LoadErr × Session) Session :=
  match fc with
  | .absent => .error (.fileNotFound, s)
  | .notJson => .error (.jsonDecode, s)
  | .content j =>
    match loadProject j with
    | .error e => .error (e, s)
    | .ok data =>
      match lookupKey data "project_name" with
      | none => .error (.keyError "project_name", s)
      | some v₁ =>
        match lookupKey data "start_date" with
        | none => .error (.keyError "start_date", { s with projectName := v₁ })
        | some v₂ =>
          match lookupKey data "phases" with
          | none =>
            .error (.keyError "phases",
              { s with projectName := v₁, startDate := v₂ })
          | some v₃ =>
            .ok { projectName := v₁, startDate := v₂, phases := v₃,
                  notes := (lookupKey data "notes").getD (.str "") }

/-- Whitespace stripped by Python `str.strip()` (ASCII portion; phase
names typed into the form contain no other Unicode space characters). -/
def isPySpace (c : Char) : Bool :=
  c = ' ' || c = '\t' || c = '\n' || c = '\r' ||
    c = Char.ofNat 11 || c = Char.ofNat 12

/-- Python `new_phase_name.strip()`. -/
def pyStrip (s : String) : String :=
  ⟨((s.data.dropWhile isPySpace).reverse.dropWhile isPySpace).reverse⟩

/-- The Add-Phase click handler (source lines 176-185): a truthy (non-empty)
stripped name is appended with the chosen duration and a success message is
shown (`true`); an empty stripped name only shows the
`"Phase name cannot be empty."` error (`false`), leaving the list as is. -/
def addPhaseButton (name : String) (dur : Nat) (phases : List Phase) :
    Bool × List Phase :=
  if pyStrip name ≠ "" then (true, phases ++ [⟨pyStrip name, dur⟩])
  else (false, phases)

/-- A spreadsheet/CSV cell: the DataFrame holds strings, integers and
datetime values, which each writer then renders in its own format. -/
inductive Cell where
  | str (s : String) : Cell
  | int (n : Int) : Cell
  | dt (d : Datetime) : Cell

/-- The column row `Phase, Start Date, End Date, Duration (weeks)`. -/
def headerRow : List Cell :=
  [.str "Phase", .str "Start Date", .str "End Date",
    .str "Duration (weeks)"]

/-- `timeline_df.to_csv(index=False)` (line 258) as its grid of cells:
the header row followed by one row per timeline entry in order. -/
def csvTable (tl : List TimelineEntry) : List (List Cell) :=
  headerRow ::
    tl.map (fun e => [.str e.phase, .dt e.startAt, .dt e.endAt, .int e.weeks])

/-- `to_excel` (lines 113-118): one sheet named `Timeline` written with
`df.to_excel(writer, index=False, sheet_name='Timeline')`, holding the
same grid. -/
def excelWorkbook (tl : List TimelineEntry) : String × List (List Cell) :=
  ("Timeline",
    headerRow ::
      tl.map (fun e =>
        [.str e.phase, .dt e.startAt, .dt e.endAt, .int e.weeks]))

/-- ISO-8601 rendering used by `to_json(date_format="iso")`:
`YYYY-MM-DDTHH:MM:SS.mmm` (milliseconds are always 000 here). -/
def isoDatetime (dt : Datetime) : String :=
  ⟨padChars 4 dt.date.year ++ ('-' :: padChars 2 dt.date.month) ++
    ('-' :: padChars 2 dt.date.day) ++
    ('T' :: (padChars 2 (dt.secs / 3600) ++
      (':' :: padChars 2 (dt.secs % 3600 / 60)) ++
      (':' :: padChars 2 (dt.secs % 60)) ++ ('.' :: padChars 3 0)))⟩

/-- `timeline_df.to_json(date_format="iso", orient="records")` (line 266):
an array of records keyed by the column names. -/
def jsonRecords (tl : List TimelineEntry) : JVal :=
  .arr (tl.map (fun e => .obj
    [("Phase", .str e.phase),
     ("Start Date", .str (isoDatetime e.startAt)),
     ("End Date", .str (isoDatetime e.endAt)),
     ("Duration (weeks)", .int e.weeks)]))

/-- Outcome of a Generate-Timeline click (lines 212-267): either only the
empty-phases warning, or the computed timeline together with the table
data and the three downloadable export payloads. -/
inductive GenResult where
  | emptyWarning : GenResult
  | output (entries : List TimelineEntry) (csv : List (List Cell))
      (excel : String × List (List Cell)) (json : JVal) : GenResult

/-- The Generate-Timeline click handler. -/
def generateButton (start : Date) (phases : List Phase) : GenResult :=
  if phases = [] then .emptyWarning
  else
    .output (generateTimeline (combineMidnight start) phases)
      (csvTable (generateTimeline (combineMidnight start) phases))
      (excelWorkbook (generateTimeline (combineMidnight start) phases))
      (jsonRecords (generateTimeline (combineMidnight start) phases))

/-- String content of a cell (used to read a name column back). -/
def cellStr : Cell → String
  | .str s => s
  | _ => ""

/-- Integer content of a cell (used to read a duration column back). -/
def cellInt : Cell → Int
  | .int n => n
  | _ => 0

/-- Name and duration columns of a tabular export, header dropped. -/
def tableNameDur (rows : List (List Cell)) : List (String × Int) :=
  (rows.drop 1).map (fun r =>
    (cellStr (r.getD 0 (.str "")), cellInt (r.getD 3 (.str ""))))

/-- Name and duration fields of the JSON export records. -/
def jsonNameDur : JVal → List (String × Int)
  | .arr xs =>
    xs.map (fun r =>
      match r with
      | .obj kvs =>
        (match lookupKey kvs "Phase" with
          | some (.str s) => s
          | _ => "",
         match lookupKey kvs "Duration (weeks)" with
          | some (.int n) => n
          | _ => 0)
      | _ => ("", 0))
  | _ => []

theorem generateTimeline_length (cur : Datetime) (ps : List Phase) :
    (generateTimeline cur ps).length = ps.length := by
  induction ps generalizing cur with
  | nil => rfl
  | cons p ps ih => simp [generateTimeline, ih]

theorem generateTimeline_getD_fields (ps : List Phase) :
    ∀ (cur : Datetime) (i : Nat), i < ps.length →
      ((generateTimeline cur ps).getD i defEntry).phase = (ps.getD i defPhase).name ∧
      ((generateTimeline cur ps).getD i defEntry).weeks = (ps.getD i defPhase).weeks := by
  induction ps with
  | nil => intro cur i h; exact absurd h (by simp)
  | cons p ps ih =>
    intro cur i h
    match i with
    | 0 => exact ⟨rfl, rfl⟩
    | j + 1 =>
      have hj : j < ps.length := by simpa using h
      simpa [generateTimeline] using ih (addWeeks cur p.weeks) j hj

theorem generateTimeline_getD_start_head (cur : Datetime) (p : Phase)
    (ps : List Phase) :
    ((generateTimeline cur (p :: ps)).getD 0 defEntry).startAt = cur := rfl

theorem generateTimeline_getD_end (ps : List Phase) :
    ∀ (cur : Datetime) (i : Nat), i < ps.length →
      ((generateTimeline cur ps).getD i defEntry).endAt =
        addWeeks ((generateTimeline cur ps).getD i defEntry).startAt
          ((generateTimeline cur ps).getD i defEntry).weeks := by
  induction ps with
  | nil => intro cur i h; exact absurd h (by simp)
  | cons p ps ih =>
    intro cur i h
    match i with
    | 0 => rfl
    | j + 1 =>
      have hj : j < ps.length := by simpa using h
      simpa [generateTimeline] using ih (addWeeks cur p.weeks) j hj

theorem generateTimeline_getD_chain (ps : List Phase) :
    ∀ (cur : Datetime) (i : Nat), i + 1 < ps.length →
      ((generateTimeline cur ps).getD (i + 1) defEntry).startAt =
        ((generateTimeline cur ps).getD i defEntry).endAt := by
  induction ps with
  | nil => intro cur i h; exact absurd h (by simp)
  | cons p ps ih =>
    intro cur i h
    match i with
    | 0 =>
      have hne : ps ≠ [] := by
        cases ps with
        | nil => simp at h
        | cons q qs => simp
      cases ps with
      | nil => simp at h
      | cons q qs => rfl
    | j + 1 =>
      have hj : j + 1 < ps.length := by simpa using h
      simpa [generateTimeline] using ih (addWeeks cur p.weeks) j hj

/-- C1: for every non-empty phase sequence and start date `D`, the generated
timeline has one entry per phase in order, starts at midnight of `D`, each
later entry starts where the previous one ends, and each entry ends at its
start plus its duration in weeks. -/
theorem c1_timeline_invariants (D : Date) (ps : List Phase) (hne : ps ≠ []) :
    (generateTimeline (combineMidnight D) ps).length = ps.length ∧
    (∀ i, i < ps.length →
      ((generateTimeline (combineMidnight D) ps).getD i defEntry).phase =
        (ps.getD i defPhase).name ∧
      ((generateTimeline (combineMidnight D) ps).getD i defEntry).weeks =
        (ps.getD i defPhase).weeks) ∧
    ((generateTimeline (combineMidnight D) ps).getD 0 defEntry).startAt =
      combineMidnight D ∧
    (∀ i, i + 1 < ps.length →
      ((generateTimeline (combineMidnight D) ps).getD (i + 1) defEntry).startAt =
        ((generateTimeline (combineMidnight D) ps).getD i defEntry).endAt) ∧
    (∀ i, i < ps.length →
      ((generateTimeline (combineMidnight D) ps).getD i defEntry).endAt =
        addWeeks ((generateTimeline (combineMidnight D) ps).getD i defEntry).startAt
          ((generateTimeline (combineMidnight D) ps).getD i defEntry).weeks) := by
  refine ⟨generateTimeline_length _ _,
    fun i h => generateTimeline_getD_fields ps _ i h, ?_,
    fun i h => generateTimeline_getD_chain ps _ i h,
    fun i h => generateTimeline_getD_end ps _ i h⟩
  cases ps with
  | nil => exact absurd rfl hne
  | cons p ps => exact generateTimeline_getD_start_head _ p ps

/-- Witness for C1 at a concrete non-empty input. -/
theorem c1_timeline_invariants_witness :
    (generateTimeline (combineMidnight ⟨2024, 1, 1⟩) [⟨"A", 1⟩]).length = 1 ∧
    ((generateTimeline (combineMidnight ⟨2024, 1, 1⟩) [⟨"A", 1⟩]).getD 0
        defEntry).startAt = combineMidnight ⟨2024, 1, 1⟩ := by
  have h := c1_timeline_invariants ⟨2024, 1, 1⟩ [⟨"A", 1⟩] (by decide)
  exact ⟨h.1, h.2.2.1⟩

/-- C8: the concrete scenario from the spec: start 2024-01-01 with phases
Design (2 weeks) and Build (3 weeks) yields Design 2024-01-01 to 2024-01-15
and Build 2024-01-15 to 2024-02-05. -/
theorem c8_concrete_scenario :
    generateTimeline (combineMidnight ⟨2024, 1, 1⟩)
        [⟨"Design", 2⟩, ⟨"Build", 3⟩] =
      [⟨"Design", ⟨⟨2024, 1, 1⟩, 0⟩, ⟨⟨2024, 1, 15⟩, 0⟩, 2⟩,
       ⟨"Build", ⟨⟨2024, 1, 15⟩, 0⟩, ⟨⟨2024, 2, 5⟩, 0⟩, 3⟩] := by decide

theorem daysInMonth_le (y m : Nat) : daysInMonth y m ≤ 31 := by
  unfold daysInMonth
  split_ifs <;> omega

theorem padDigits_length (w : Nat) : ∀ n, (padDigits w n).length = w := by
  induction w with
  | zero => intro n; rfl
  | succ w ih => intro n; simp [padDigits, ih]

theorem mem_padDigits_lt (w : Nat) : ∀ n x, x ∈ padDigits w n → x < 10 := by
  induction w with
  | zero => intro n x h; simp [padDigits] at h
  | succ w ih =>
    intro n x h
    simp only [padDigits, List.mem_append, List.mem_singleton] at h
    rcases h with h | h
    · exact ih _ _ h
    · subst h; exact Nat.mod_lt _ (by omega)

theorem foldl_padDigits (w : Nat) : ∀ n a, n < 10 ^ w →
    (padDigits w n).foldl (fun a d => a * 10 + d) a = a * 10 ^ w + n := by
  induction w with
  | zero =>
    intro n a h
    have hn : n = 0 := by simpa using Nat.lt_one_iff.mp (by simpa using h)
    simp [padDigits, hn]
  | succ w ih =>
    intro n a h
    have hdiv : n / 10 < 10 ^ w := by
      rw [Nat.div_lt_iff_lt_mul (by omega : 0 < 10)]
      calc n < 10 ^ (w + 1) := h
        _ = 10 ^ w * 10 := by rw [pow_succ]
    rw [padDigits, List.foldl_append, ih (n / 10) a hdiv]
    have hmod : n / 10 * 10 + n % 10 = n := Nat.div_add_mod' n 10
    calc List.foldl (fun a d => a * 10 + d) (a * 10 ^ w + n / 10) [n % 10]
        = (a * 10 ^ w + n / 10) * 10 + n % 10 := rfl
      _ = a * (10 ^ w * 10) + (n / 10 * 10 + n % 10) := by ring
      _ = a * 10 ^ (w + 1) + n := by rw [hmod, pow_succ]

theorem digitsVal_padDigits (w n : Nat) (h : n < 10 ^ w) :
    digitsVal (padDigits w n) = n := by
  simpa [digitsVal] using foldl_padDigits w n 0 h

theorem digitChar_toNat : ∀ x, x < 10 → (digitChar x).toNat = 48 + x := by decide

theorem digitChar_isDigit : ∀ x, x < 10 → (digitChar x).isDigit = true := by
  decide

theorem digitChar_ne_dash : ∀ x, x < 10 → digitChar x ≠ '-' := by decide

theorem charsVal_map_digitChar :
    ∀ (ds : List Nat), (∀ d ∈ ds, d < 10) → ∀ a,
      (ds.map digitChar).foldl (fun a c => a * 10 + (c.toNat - 48)) a =
        ds.foldl (fun a d => a * 10 + d) a := by
  intro ds
  induction ds with
  | nil => intro _ a; rfl
  | cons d ds ih =>
    intro h a
    have hd : d < 10 := h d (by simp)
    have hdc : (digitChar d).toNat - 48 = d := by
      rw [digitChar_toNat d hd]; omega
    simp only [List.map_cons, List.foldl_cons, hdc]
    exact ih (fun x hx => h x (List.mem_cons_of_mem _ hx)) _

theorem charsVal_padChars (w n : Nat) (h : n < 10 ^ w) :
    charsVal (padChars w n) = n := by
  unfold charsVal padChars
  rw [charsVal_map_digitChar _ (fun x hx => mem_padDigits_lt w n x hx)]
  simpa using foldl_padDigits w n 0 h

theorem padChars_length (w n : Nat) : (padChars w n).length = w := by
  simp [padChars, padDigits_length]

theorem padChars_inj (w a b : Nat) (ha : a < 10 ^ w) (hb : b < 10 ^ w)
    (h : padChars w a = padChars w b) : a = b := by
  have hc := congrArg charsVal h
  rwa [charsVal_padChars w a ha, charsVal_padChars w b hb] at hc

theorem mem_padChars_isDigit (w n : Nat) :
    ∀ c ∈ padChars w n, c.isDigit = true := by
  intro c hc
  simp only [padChars, List.mem_map] at hc
  obtain ⟨x, hx, rfl⟩ := hc
  exact digitChar_isDigit x (mem_padDigits_lt w n x hx)

theorem mem_padChars_ne_dash (w n : Nat) :
    ∀ c ∈ padChars w n, c ≠ '-' := by
  intro c hc
  simp only [padChars, List.mem_map] at hc
  obtain ⟨x, hx, rfl⟩ := hc
  exact digitChar_ne_dash x (mem_padDigits_lt w n x hx)

theorem splitDash_no_dash :
    ∀ xs : List Char, (∀ c ∈ xs, c ≠ '-') → splitDash xs = [xs] := by
  intro xs
  induction xs with
  | nil => intro _; rfl
  | cons c cs ih =>
    intro h
    have hc : c ≠ '-' := h c (by simp)
    have hcs := ih (fun x hx => h x (by simp [hx]))
    simp [splitDash, hc, hcs]

theorem splitDash_append :
    ∀ (xs rest : List Char), (∀ c ∈ xs, c ≠ '-') →
      splitDash (xs ++ '-' :: rest) = xs :: splitDash rest := by
  intro xs
  induction xs with
  | nil => intro rest _; simp [splitDash]
  | cons c cs ih =>
    intro rest h
    have hc : c ≠ '-' := h c (by simp)
    have hcs := ih rest (fun x hx => h x (by simp [hx]))
    simp [splitDash, hc, hcs]

theorem parseDate_formatDate (d : Date) (hv : d.Valid) :
    parseDate (formatDate d) = some d := by
  obtain ⟨hy1, hy2, hm1, hm2, hd1, hd2⟩ := hv
  have hylt : d.year < 10 ^ 4 := by
    have : (10 : Nat) ^ 4 = 10000 := by norm_num
    omega
  have hmlt : d.month < 10 ^ 2 := by
    have : (10 : Nat) ^ 2 = 100 := by norm_num
    omega
  have hdlt : d.day < 10 ^ 2 := by
    have h31 := daysInMonth_le d.year d.month
    have : (10 : Nat) ^ 2 = 100 := by norm_num
    omega
  have hyv := charsVal_padChars 4 d.year hylt
  have hmv := charsVal_padChars 2 d.month hmlt
  have hdv := charsVal_padChars 2 d.day hdlt
  have hdata : (formatDate d).data =
      padChars 4 d.year ++
        ('-' :: (padChars 2 d.month ++ ('-' :: padChars 2 d.day))) := rfl
  have hsplit : splitDash (formatDate d).data =
      [padChars 4 d.year, padChars 2 d.month, padChars 2 d.day] := by
    rw [hdata, splitDash_append _ _ (mem_padChars_ne_dash 4 d.year),
      splitDash_append _ _ (mem_padChars_ne_dash 2 d.month),
      splitDash_no_dash _ (mem_padChars_ne_dash 2 d.day)]
  have hne2 : ∀ n : Nat, padChars 2 n ≠ [] := by
    intro n hn
    have := padChars_length 2 n
    rw [hn] at this
    simp at this
  simp only [parseDate, hsplit]
  split_ifs with h1 h2
  · rw [hyv, hmv, hdv]
  · exfalso
    apply h2
    rw [hyv, hmv, hdv]
    exact ⟨by omega, by omega, hm2, by omega, hd2⟩
  · exfalso
    apply h1
    refine ⟨padChars_length 4 _, ?_, hne2 _, le_of_eq (padChars_length 2 _), ?_,
      hne2 _, le_of_eq (padChars_length 2 _), ?_⟩
    · rw [List.all_eq_true]
      exact fun c hc => mem_padChars_isDigit _ _ c hc
    · rw [List.all_eq_true]
      exact fun c hc => mem_padChars_isDigit _ _ c hc
    · rw [List.all_eq_true]
      exact fun c hc => mem_padChars_isDigit _ _ c hc

theorem fmtTsChars_inj (t₁ t₂ : Timestamp) (h₁ : t₁.Valid) (h₂ : t₂.Valid)
    (h : fmtTsChars t₁ = fmtTsChars t₂) : t₁ = t₂ := by
  obtain ⟨a1, a2, a3, a4, a5, a6, a7, a8, a9⟩ := h₁
  obtain ⟨b1, b2, b3, b4, b5, b6, b7, b8, b9⟩ := h₂
  have p4 : (10 : Nat) ^ 4 = 10000 := by norm_num
  have p2 : (10 : Nat) ^ 2 = 100 := by norm_num
  unfold fmtTsChars at h
  simp only [List.append_assoc] at h
  obtain ⟨hy, h⟩ :=
    List.append_inj h (by rw [padChars_length, padChars_length])
  obtain ⟨hmo, h⟩ :=
    List.append_inj h (by rw [padChars_length, padChars_length])
  obtain ⟨hd, h⟩ :=
    List.append_inj h (by rw [padChars_length, padChars_length])
  obtain ⟨-, h⟩ := List.cons.inj h
  obtain ⟨hh, h⟩ :=
    List.append_inj h (by rw [padChars_length, padChars_length])
  obtain ⟨hmi, hs⟩ :=
    List.append_inj h (by rw [padChars_length, padChars_length])
  have ey := padChars_inj 4 _ _ (by omega) (by omega) hy
  have emo := padChars_inj 2 _ _ (by omega) (by omega) hmo
  have ed := padChars_inj 2 _ _ (by omega) (by omega) hd
  have eh := padChars_inj 2 _ _ (by omega) (by omega) hh
  have emi := padChars_inj 2 _ _ (by omega) (by omega) hmi
  have es := padChars_inj 2 _ _ (by omega) (by omega) hs
  cases t₁; cases t₂
  simp_all

theorem saveFilename_inj (t₁ t₂ : Timestamp) (h₁ : t₁.Valid) (h₂ : t₂.Valid)
    (h : saveFilename t₁ = saveFilename t₂) : t₁ = t₂ := by
  apply fmtTsChars_inj t₁ t₂ h₁ h₂
  have hd := congrArg String.data h
  simp only [saveFilename, String.data_append] at hd
  have hmid := List.append_cancel_right hd
  exact List.append_cancel_left hmid

theorem saveFilename_data (t : Timestamp) :
    (saveFilename t).data =
      ("project_".data ++ fmtTsChars t) ++ ".json".data := by
  simp [saveFilename, String.data_append, List.append_assoc]

theorem pyStartswith_saveFilename (t : Timestamp) :
    pyStartswith (saveFilename t) "project_" = true := by
  rw [pyStartswith, List.isPrefixOf_iff_prefix, saveFilename_data,
    List.append_assoc]
  exact List.prefix_append _ _

theorem pyEndswith_saveFilename (t : Timestamp) :
    pyEndswith (saveFilename t) ".json" = true := by
  rw [pyEndswith, List.isSuffixOf_iff_suffix, saveFilename_data]
  exact List.suffix_append _ _

theorem mem_saveToDir_self (dir : List String) (t : Timestamp) :
    saveFilename t ∈ saveToDir dir t := by
  unfold saveToDir
  split_ifs with h
  · exact h
  · simp

theorem mem_saveToDir_mono (dir : List String) (t : Timestamp) (f : String)
    (h : f ∈ dir) : f ∈ saveToDir dir t := by
  unfold saveToDir
  split_ifs
  · exact h
  · simp [h]

theorem mem_saves_mono (ts : List Timestamp) :
    ∀ (dir : List String) (f : String), f ∈ dir → f ∈ saves dir ts := by
  induction ts with
  | nil => intro dir f h; exact h
  | cons t ts ih => intro dir f h; exact ih _ f (mem_saveToDir_mono dir t f h)

theorem saveFilename_mem_saves (ts : List Timestamp) :
    ∀ (dir : List String) (t : Timestamp), t ∈ ts →
      saveFilename t ∈ saves dir ts := by
  induction ts with
  | nil => intro dir t h; simp at h
  | cons u ts ih =>
    intro dir t h
    rcases List.mem_cons.mp h with h | h
    · subst h
      exact mem_saves_mono ts _ _ (mem_saveToDir_self dir t)
    · exact ih _ t h

/-- C3 (amended): the save filename is derived from the current timestamp as
`project_<YYYYMMDD_HHMMSS>.json`, and two saves whose second-resolution
timestamps differ get distinct filenames; two saves within the same second
share a filename (see the counterexample) and the later one overwrites. -/
theorem c3_filename_scheme (t₁ t₂ : Timestamp) (h₁ : t₁.Valid)
    (h₂ : t₂.Valid) :
    saveFilename t₁ = "project_" ++ String.mk (fmtTsChars t₁) ++ ".json" ∧
    (saveFilename t₁ = saveFilename t₂ → t₁ = t₂) :=
  ⟨rfl, saveFilename_inj t₁ t₂ h₁ h₂⟩

/-- Witness for C3 (amended) at concrete timestamps. -/
theorem c3_filename_scheme_witness :
    saveFilename ⟨2024, 1, 1, 12, 0, 0⟩ =
      "project_" ++ String.mk (fmtTsChars ⟨2024, 1, 1, 12, 0, 0⟩) ++ ".json" ∧
    (saveFilename ⟨2024, 1, 1, 12, 0, 0⟩ = saveFilename ⟨2024, 1, 1, 12, 0, 1⟩ →
      (⟨2024, 1, 1, 12, 0, 0⟩ : Timestamp) = ⟨2024, 1, 1, 12, 0, 1⟩) :=
  c3_filename_scheme ⟨2024, 1, 1, 12, 0, 0⟩ ⟨2024, 1, 1, 12, 0, 1⟩
    (by unfold Timestamp.Valid; decide) (by unfold Timestamp.Valid; decide)

/-- C3 counterexample: two distinct save operations issued within the same
wall-clock second generate the same filename, so the second save overwrites
the first: after two saves at the same timestamp the storage directory holds
a single file. -/
theorem c3_counterexample_same_second :
    saveToDir (saveToDir [] ⟨2024, 1, 1, 12, 0, 0⟩) ⟨2024, 1, 1, 12, 0, 0⟩ =
      ["project_20240101_120000.json"] := by decide

/-- C9: every filename generated by a sequence of saves appears in the
project listing afterwards, and the listing recognizes exactly the files of
the storage directory whose names start with `"project_"` and end with
`".json"`. -/
theorem c9_listing_after_saves (dir : List String) (ts : List Timestamp)
    (t : Timestamp) (ht : t ∈ ts) :
    saveFilename t ∈ listLocalProjects (saves dir ts) ∧
    ∀ f, f ∈ listLocalProjects dir ↔
      (f ∈ dir ∧ pyStartswith f "project_" = true ∧
        pyEndswith f ".json" = true) := by
  constructor
  · rw [listLocalProjects, List.mem_filter]
    exact ⟨saveFilename_mem_saves ts dir t ht,
      by rw [Bool.and_eq_true]
         exact ⟨pyEndswith_saveFilename t, pyStartswith_saveFilename t⟩⟩
  · intro f
    rw [listLocalProjects, List.mem_filter, Bool.and_eq_true]
    tauto

/-- Witness for C9: one save at a concrete timestamp, its file is listed. -/
theorem c9_listing_after_saves_witness :
    saveFilename ⟨2024, 1, 1, 12, 0, 0⟩ ∈
      listLocalProjects (saves [] [⟨2024, 1, 1, 12, 0, 0⟩]) :=
  (c9_listing_after_saves [] [⟨2024, 1, 1, 12, 0, 0⟩] ⟨2024, 1, 1, 12, 0, 0⟩
    (by simp)).1

theorem lookupKey_setKey_same :
    ∀ (kvs : List (String × JVal)) (k : String) (v w : JVal),
      lookupKey kvs k = some w → lookupKey (setKey kvs k v) k = some v := by
  intro kvs k v w
  induction kvs with
  | nil => intro h; simp [lookupKey] at h
  | cons kv kvs ih =>
    obtain ⟨k₀, v₀⟩ := kv
    intro h
    by_cases hk : k₀ = k
    · simp [setKey, lookupKey, hk]
    · simp only [lookupKey, setKey, hk, if_false, if_neg hk] at h ⊢
      exact ih h

theorem lookupKey_setKey_ne :
    ∀ (kvs : List (String × JVal)) (k : String) (v : JVal) (k' : String),
      k ≠ k' → lookupKey (setKey kvs k v) k' = lookupKey kvs k' := by
  intro kvs k v k' hne
  induction kvs with
  | nil => rfl
  | cons kv kvs ih =>
    obtain ⟨k₀, v₀⟩ := kv
    by_cases hk : k₀ = k
    · subst hk
      simp [setKey, lookupKey, hne]
    · simp [setKey, lookupKey, hk, ih]

theorem loadProject_ok_start_date (j : JVal) (data : List (String × JVal))
    (h : loadProject j = .ok data) :
    ∃ d, lookupKey data "start_date" = some (.date d) := by
  match j with
  | .null | .bool _ | .int _ | .str _ | .arr _ => simp [loadProject] at h
  | .obj kvs =>
    rw [loadProject] at h
    split at h
    · exact absurd h (by simp)
    · rename_i s hk
      split at h
      · rename_i d hp
        simp only [Except.ok.injEq] at h
        subst h
        exact ⟨d, lookupKey_setKey_same kvs "start_date" (.date d) _ hk⟩
      · exact absurd h (by simp)
    · exact absurd h (by simp)

/-- C2: saving a project and then loading the produced document reproduces
the project name, start date, ordered phase list, and notes exactly in the
session state. -/
theorem c2_save_load_roundtrip (p : Project) (s : Session)
    (hv : p.startDate.Valid) :
    loadButton s (.content (saveJson p)) =
      .ok ⟨.str p.name, .date p.startDate, .arr (p.phases.map phaseJson),
        .str p.notes⟩ := by
  simp [loadButton, loadProject, saveJson, lookupKey, setKey,
    parseDate_formatDate p.startDate hv]

/-- Witness for C2 at a concrete project. -/
theorem c2_save_load_roundtrip_witness :
    loadButton ⟨.null, .null, .null, .null⟩
        (.content (saveJson ⟨"Demo", ⟨2024, 1, 1⟩, [⟨"Design", 2⟩], "hi"⟩)) =
      .ok ⟨.str "Demo", .date ⟨2024, 1, 1⟩,
        .arr (List.map phaseJson [⟨"Design", 2⟩]), .str "hi"⟩ :=
  c2_save_load_roundtrip ⟨"Demo", ⟨2024, 1, 1⟩, [⟨"Design", 2⟩], "hi"⟩
    ⟨.null, .null, .null, .null⟩ (by unfold Date.Valid; decide)

/-- C4 counterexample: loading a well-formed document that lacks only the
`"phases"` key fails, but the handler has already overwritten the
session's project name and start date before the failure (source lines
136-138), so the session state is NOT left untouched. -/
theorem c4_counterexample_partial_mutation :
    loadButton ⟨.str "Old", .null, .null, .null⟩
        (.content (.obj [("project_name", .str "A"),
          ("start_date", .str "2024-01-01")])) =
      .error (.keyError "phases",
        ⟨.str "A", .date ⟨2024, 1, 1⟩, .null, .null⟩) ∧
    (⟨.str "A", .date ⟨2024, 1, 1⟩, .null, .null⟩ : Session) ≠
      ⟨.str "Old", .null, .null, .null⟩ := by
  constructor
  · rfl
  · intro h
    exact absurd (congrArg Session.projectName h) (by simp)

/-- C4 (amended): a load of an absent document fails with the
file-not-found error, a syntactically malformed document fails with the
JSON-decode error, a document whose `"start_date"` is missing or does not
parse as `YYYY-MM-DD` fails with a parse-kind error, and in each of these
cases — in every failure case except the missing-`"phases"` one — the
session state is left untouched. -/
theorem c4_load_failure_handling (s : Session) (fc : FileContent) :
    loadButton s .absent = .error (.fileNotFound, s) ∧
    loadButton s .notJson = .error (.jsonDecode, s) ∧
    (∀ kvs, lookupKey kvs "start_date" = none →
      loadButton s (.content (.obj kvs)) =
        .error (.keyError "start_date", s)) ∧
    (∀ kvs ds, lookupKey kvs "start_date" = some (.str ds) →
      parseDate ds = none →
      loadButton s (.content (.obj kvs)) = .error (.valueError, s)) ∧
    (∀ e s', loadButton s fc = .error (e, s') → e ≠ .keyError "phases" →
      s' = s) := by
  refine ⟨rfl, rfl, ?_, ?_, ?_⟩
  · intro kvs h
    simp [loadButton, loadProject, h]
  · intro kvs ds h hp
    simp [loadButton, loadProject, h, hp]
  · intro e s' h hne
    match fc with
    | .absent =>
      simp only [loadButton, Except.error.injEq, Prod.mk.injEq] at h
      exact h.2.symm
    | .notJson =>
      simp only [loadButton, Except.error.injEq, Prod.mk.injEq] at h
      exact h.2.symm
    | .content j =>
      rw [loadButton] at h
      split at h
      · simp only [Except.error.injEq, Prod.mk.injEq] at h
        exact h.2.symm
      · rename_i data hlp
        obtain ⟨d, hsd⟩ := loadProject_ok_start_date j data hlp
        split at h
        · simp only [Except.error.injEq, Prod.mk.injEq] at h
          exact h.2.symm
        · rename_i v₁ hpn
          split at h
          · rename_i hnone
            rw [hsd] at hnone
            exact absurd hnone (by simp)
          · rename_i v₂ hsd2
            split at h
            · simp only [Except.error.injEq, Prod.mk.injEq] at h
              exact absurd h.1.symm hne
            · simp at h

/-- Witness for C4 (amended): a document whose `"start_date"` does not
parse fails with `ValueError` and leaves the session untouched. -/
theorem c4_load_failure_handling_witness :
    loadButton ⟨.str "Old", .null, .null, .null⟩
        (.content (.obj [("start_date", .str "oops")])) =
      .error (.valueError, ⟨.str "Old", .null, .null, .null⟩) :=
  (c4_load_failure_handling ⟨.str "Old", .null, .null, .null⟩
      (.content (.obj [("start_date", .str "oops")]))).2.2.2.1
    [("start_date", .str "oops")] "oops" rfl rfl

/-- C10: a document with `project_name`, a well-formed `start_date` and
`phases` but no `"notes"` key loads successfully and sets the session
notes to the empty string (the `.get("notes", "")` default, line 139). -/
theorem c10_missing_notes_defaults_empty (s : Session)
    (kvs : List (String × JVal)) (v₁ v₃ : JVal) (ds : String) (d : Date)
    (h₁ : lookupKey kvs "project_name" = some v₁)
    (h₂ : lookupKey kvs "start_date" = some (.str ds))
    (h₃ : parseDate ds = some d)
    (h₄ : lookupKey kvs "phases" = some v₃)
    (h₅ : lookupKey kvs "notes" = none) :
    loadButton s (.content (.obj kvs)) =
      .ok ⟨v₁, .date d, v₃, .str ""⟩ := by
  have hsd := lookupKey_setKey_same kvs "start_date" (.date d) _ h₂
  have hpn := lookupKey_setKey_ne kvs "start_date" (.date d) "project_name"
    (by decide)
  have hph := lookupKey_setKey_ne kvs "start_date" (.date d) "phases"
    (by decide)
  have hnt := lookupKey_setKey_ne kvs "start_date" (.date d) "notes"
    (by decide)
  simp [loadButton, loadProject, h₂, h₃, hsd, hpn, hph, hnt, h₁, h₄, h₅]

/-- Witness for C10 at a concrete document without `"notes"`. -/
theorem c10_missing_notes_defaults_empty_witness :
    loadButton ⟨.null, .null, .null, .null⟩
        (.content (.obj [("project_name", .str "P"),
          ("start_date", .str "2024-01-01"), ("phases", .arr [])])) =
      .ok ⟨.str "P", .date ⟨2024, 1, 1⟩, .arr [], .str ""⟩ :=
  c10_missing_notes_defaults_empty ⟨.null, .null, .null, .null⟩
    [("project_name", .str "P"), ("start_date", .str "2024-01-01"),
      ("phases", .arr [])]
    (.str "P") (.arr []) "2024-01-01" ⟨2024, 1, 1⟩ rfl rfl rfl rfl rfl

/-- C5: the Add-Phase action with a name that is empty after trimming
fails with the validation error and leaves the phase sequence unchanged
(same length, same elements). -/
theorem c5_empty_name_rejected (name : String) (dur : Nat)
    (phases : List Phase) (h : pyStrip name = "") :
    addPhaseButton name dur phases = (false, phases) := by
  simp [addPhaseButton, h]

/-- Witness for C5: `append("", 2)` fails and the store is unchanged. -/
theorem c5_empty_name_rejected_witness :
    addPhaseButton "" 2 [⟨"Design", 2⟩] = (false, [⟨"Design", 2⟩]) :=
  c5_empty_name_rejected "" 2 [⟨"Design", 2⟩] rfl

/-- C6: with an empty phase sequence the computed timeline is empty for
every start date, and the Generate action produces only the warning,
skipping chart, table and export generation. -/
theorem c6_empty_phases_warning (D : Date) :
    generateButton D [] = .emptyWarning ∧
    generateTimeline (combineMidnight D) [] = [] :=
  ⟨rfl, rfl⟩

/-- C7: for any fixed computed timeline, the CSV, spreadsheet and JSON
exports enumerate the phases in the same order with matching name and
duration values in every row — each equals the timeline's own
name/duration sequence. -/
theorem c7_exports_agree (tl : List TimelineEntry) :
    tableNameDur (csvTable tl) =
      tl.map (fun e => (e.phase, (e.weeks : Int))) ∧
    tableNameDur (excelWorkbook tl).2 =
      tl.map (fun e => (e.phase, (e.weeks : Int))) ∧
    jsonNameDur (jsonRecords tl) =
      tl.map (fun e => (e.phase, (e.weeks : Int))) := by
  refine ⟨?_, ?_, ?_⟩ <;>
    simp [tableNameDur, csvTable, excelWorkbook, jsonNameDur, jsonRecords,
      headerRow, cellStr, cellInt, lookupKey, List.map_map, Function.comp]

end TimelineApp
